import Mathlib

/-!
Verification of the observable-cell primitive in `src/atom.h` (classes
`Atom<T>` and `Subscription<T>`).

The embedding is sequential and value-based: the mutex-protected fields
`value_`, `listeners_`, `next_id_` and the presence of `on_error_` become a
record `AtomState`; the `std::unordered_map` registry becomes an association
list with unique keys; observer callables (`std::function<void(const T&)>`,
which may throw) become functions `T → Except E Unit`; the updater passed to
`Atom::update` (`std::function<T(const T&)>`, which may throw) becomes
`T → Except E T`.  Observable behaviour of a dispatch (which observers run,
with which value, and which failures reach the error sink) is recorded as a
trace of `Event`s returned alongside the new state.

A `Subscription` handle becomes a record `SubHandle` holding whether its
`weak_ptr` is non-empty (`owner`) and its `id_`; the surrounding world
(`World`) records whether the owning atom is still alive, so that
`weak_ptr::lock` succeeds exactly when the handle's reference is non-empty
and the cell is alive.
-/

/-- One observable step of a dispatch: either some observer `id` was invoked
with value `v` (`Atom::notify` calls `cb(value)`), or the error sink
`on_error_` was invoked with a captured failure `e`. -/
inductive Event (T E : Type) where
  | invoke (id : Nat) (v : T)
  | sink (e : E)
deriving DecidableEq, Repr

/-- The registry type: `std::unordered_map<uint64_t, std::function<void(const T&)>>`,
embedded as an association list from ids to fallible callbacks. -/
abbrev ListenerMap (T E : Type) : Type := List (Nat × (T → Except E Unit))

/-- Embeds `listeners_.erase(id)`: remove the entry with key `id`. -/
def mapErase {T E : Type} (l : ListenerMap T E) (id : Nat) : ListenerMap T E :=
  l.filter (fun p => p.1 ≠ id)

/-- Embeds `listeners_[id] = cb`: map assignment, i.e. replace any entry at `id`,
otherwise insert. -/
def mapInsert {T E : Type} (l : ListenerMap T E) (id : Nat)
    (cb : T → Except E Unit) : ListenerMap T E :=
  mapErase l id ++ [(id, cb)]

/-- Number of registry entries under key `id` (0 or 1 when keys are unique). -/
def countKey {T E : Type} (l : ListenerMap T E) (id : Nat) : Nat :=
  (l.filter (fun p => p.1 = id)).length

/-- The state of an `Atom<T>`: fields `value_`, `listeners_`, `next_id_`,
and whether `on_error_` is configured (non-null). -/
structure AtomState (T E : Type) where
  value : T
  listeners : ListenerMap T E
  nextId : Nat
  sinkConfigured : Bool

/-- Embeds `createAtom(initial, onError)`: the freshly constructed state:
`value_ = initial`, empty registry, `next_id_{0}`. -/
def createAtom {T E : Type} (initial : T) (sinkConfigured : Bool) : AtomState T E :=
  ⟨initial, [], 0, sinkConfigured⟩

/-- Embeds `Atom::get`: returns a copy of `value_`. -/
def AtomState.get {T E : Type} (s : AtomState T E) : T := s.value

/-- Embeds `Atom::notify(snapshot, value)`: iterate the snapshot; each callback is
invoked with `value`; a callback that throws has its failure caught and, if
`on_error_` is configured, forwarded to the sink; iteration then continues
with the next observer. -/
def notify {T E : Type} (sinkConfigured : Bool) :
    ListenerMap T E → T → List (Event T E)
  | [], _ => []
  | p :: rest, v =>
      (match p.2 v with
       | Except.ok _ => [Event.invoke p.1 v]
       | Except.error e =>
           Event.invoke p.1 v :: (if sinkConfigured then [Event.sink e] else []))
      ++ notify sinkConfigured rest v

/-- Embeds `Atom::set(value)`: under the lock, return early if the new value equals
`value_` (equality-skip, `T` equality-comparable); otherwise store it and
snapshot the registry and the stored value; then dispatch via `notify`. -/
def AtomState.set {T E : Type} [DecidableEq T] (s : AtomState T E) (v : T) :
    AtomState T E × List (Event T E) :=
  if v = s.value then (s, [])
  else ({ s with value := v }, notify s.sinkConfigured s.listeners v)

/-- Embeds `Atom::update(updater)` for an updater that terminates normally: compute
`updater(value_)` under the lock, apply the same equality-skip as `set`,
store and dispatch on acceptance. -/
def AtomState.update {T E : Type} [DecidableEq T] (s : AtomState T E)
    (f : T → T) : AtomState T E × List (Event T E) :=
  let nv := f s.value
  if nv = s.value then (s, [])
  else ({ s with value := nv }, notify s.sinkConfigured s.listeners nv)

/-- Embeds `Atom::update(updater)` with a possibly-throwing updater: `updater(value_)`
runs under the lock before any state change; a failure propagates to the
caller (there is no catch around it), leaving the state untouched. -/
def AtomState.updateE {T E : Type} [DecidableEq T] (s : AtomState T E)
    (f : T → Except E T) : Except E (AtomState T E × List (Event T E)) :=
  match f s.value with
  | Except.error e => Except.error e
  | Except.ok nv =>
      Except.ok (if nv = s.value then (s, [])
        else ({ s with value := nv }, notify s.sinkConfigured s.listeners nv))

/-- Embeds `Atom::subscribe(callback)`: allocate `id = next_id_++`, register the
callback under `id`. Returns the new state and the allocated id (the handle
construction is modelled separately by `mkActiveSub`). -/
def AtomState.subscribe {T E : Type} (s : AtomState T E)
    (cb : T → Except E Unit) : AtomState T E × Nat :=
  ({ s with listeners := mapInsert s.listeners s.nextId cb,
            nextId := s.nextId + 1 }, s.nextId)

/-- A `Subscription<T>` handle: `owner` is whether the `weak_ptr` to the atom
is non-empty, `id` is the `id_` field. -/
structure SubHandle where
  owner : Bool
  id : Nat
deriving DecidableEq, Repr

/-- The handle returned by `Atom::subscribe`: bound to the live atom under
the freshly allocated id. -/
def mkActiveSub (id : Nat) : SubHandle := ⟨true, id⟩

/-- A handle constructed from an empty `weak_ptr` (the inert placeholder
`Subscription(std::weak_ptr<Atom<T>>{}, id)`). -/
def mkOrphanSub (id : Nat) : SubHandle := ⟨false, id⟩

/-- The world a handle operates in: the atom's state, and whether the atom
object is still alive (its `shared_ptr` owners have not all gone away). -/
structure World (T E : Type) where
  cellAlive : Bool
  cell : AtomState T E

/-- Models `weak_ptr::lock`: it succeeds iff the handle's reference is non-empty and
the atom is still alive. -/
def SubHandle.lockOk {T E : Type} (w : World T E) (sub : SubHandle) : Bool :=
  sub.owner && w.cellAlive

/-- Erase `id` from the world's registry (the body of the locked region in
the destructor, `unsubscribe` and move-assignment). -/
def worldErase {T E : Type} (w : World T E) (id : Nat) : World T E :=
  { w with cell := { w.cell with listeners := mapErase w.cell.listeners id } }

/-- Embeds `Subscription::~Subscription`: if `owner_.lock()` succeeds, erase `id_`
from the registry; otherwise do nothing. The handle object itself ceases to
exist, so only the world is returned. -/
def subDtor {T E : Type} (w : World T E) (sub : SubHandle) : World T E :=
  if sub.lockOk w then worldErase w sub.id else w

/-- Embeds `Subscription::unsubscribe`: if `owner_.lock()` succeeds, erase `id_`
from the registry; in all cases `owner_.reset()` empties the reference
(`id_` is left as is). -/
def unsubscribe {T E : Type} (w : World T E) (sub : SubHandle) : World T E × SubHandle :=
  (if sub.lockOk w then worldErase w sub.id else w, { sub with owner := false })

/-- Embeds the move constructor `Subscription(Subscription&&)`: the new handle steals the
source's reference and id; the source is left with an empty reference
(moved-from `weak_ptr`) and `id_ = 0`. Returns (new handle, moved-from source). -/
def moveCtor (sub : SubHandle) : SubHandle × SubHandle :=
  (⟨sub.owner, sub.id⟩, ⟨false, 0⟩)

/-- Embeds the move assignment `operator=(Subscription&&)` in the `this != &other` case:
first, if the target's `owner_.lock()` succeeds, erase the target's old id;
then steal the source's reference and id; the source is left with an empty
reference and `id_ = 0`. Returns (world, new target, moved-from source). -/
def moveAssign {T E : Type} (w : World T E) (target other : SubHandle) :
    World T E × SubHandle × SubHandle :=
  (if target.lockOk w then worldErase w target.id else w,
   ⟨other.owner, other.id⟩, ⟨false, 0⟩)

/-- Whether an event is an invocation of observer `id`. -/
def isInvokeOf {T E : Type} (id : Nat) : Event T E → Bool
  | Event.invoke i _ => i = id
  | Event.sink _ => false

/-- The failure carried by a sink event, if any. -/
def sinkOf {T E : Type} : Event T E → Option E
  | Event.invoke _ _ => none
  | Event.sink er => some er

/-- Number of `invoke` events for observer `id` in a trace. -/
def invokeCount {T E : Type} (evs : List (Event T E)) (id : Nat) : Nat :=
  (evs.filter (isInvokeOf id)).length

/-- The sequence of failures delivered to the error sink in a trace. -/
def sinkCalls {T E : Type} (evs : List (Event T E)) : List E :=
  evs.filterMap sinkOf

/-- The failures produced by the snapshot's callbacks on value `v`, in
snapshot order: the failures `Atom::notify` captures. -/
def capturedFailures {T E : Type} (snapshot : ListenerMap T E) (v : T) :
    List E :=
  snapshot.filterMap (fun p => match p.2 v with
    | Except.ok _ => none
    | Except.error e => some e)

/-- Registry well-formedness: every registered id was allocated by the
counter, i.e. is below `next_id_`. Holds for every reachable state. -/
def WF {T E : Type} (s : AtomState T E) : Prop :=
  ∀ id ∈ s.listeners.map Prod.fst, id < s.nextId

/-- Operations a client can perform on a live atom after some point in time:
`Atom::set`, `Atom::update` (with a non-throwing updater) and
`Atom::subscribe`. -/
inductive AtomOp (T E : Type) where
  | write (v : T)
  | upd (f : T → T)
  | reg (cb : T → Except E Unit)

/-- Run one operation on the atom, returning the new state and the events
its dispatch produced (`subscribe` dispatches nothing). -/
def stepOp {T E : Type} [DecidableEq T] (s : AtomState T E) :
    AtomOp T E → AtomState T E × List (Event T E)
  | AtomOp.write v => s.set v
  | AtomOp.upd f => s.update f
  | AtomOp.reg cb => ((s.subscribe cb).1, [])

/-- Run a sequence of operations, accumulating all dispatched events. -/
def runOps {T E : Type} [DecidableEq T] (s : AtomState T E) :
    List (AtomOp T E) → AtomState T E × List (Event T E)
  | [] => (s, [])
  | op :: rest =>
      let r := stepOp s op
      let r2 := runOps r.1 rest
      (r2.1, r.2 ++ r2.2)

/-- A sequence of `Atom::update` calls with no intervening writes. -/
def runUpdates {T E : Type} [DecidableEq T] (s : AtomState T E)
    (fs : List (T → T)) : AtomState T E :=
  fs.foldl (fun st f => (st.update f).1) s

/-- Id `id` is dead for state `s`: not registered, and already consumed by
the monotone counter (so no later `subscribe` can hand it out again). -/
def DeadId {T E : Type} (s : AtomState T E) (id : Nat) : Prop :=
  countKey s.listeners id = 0 ∧ id < s.nextId

/-! ### Helper lemmas about registries and traces -/

theorem countKey_cons {T E : Type} (p : Nat × (T → Except E Unit))
    (l : ListenerMap T E) (id : Nat) :
    countKey (p :: l) id = (if p.1 = id then 1 else 0) + countKey l id := by
  by_cases h : p.1 = id <;>
    simp [countKey, List.filter_cons, h, Nat.add_comm]

theorem countKey_append {T E : Type} (a b : ListenerMap T E) (id : Nat) :
    countKey (a ++ b) id = countKey a id + countKey b id := by
  simp [countKey, List.filter_append]

theorem mapErase_cons {T E : Type} (p : Nat × (T → Except E Unit))
    (l : ListenerMap T E) (id : Nat) :
    mapErase (p :: l) id = if p.1 = id then mapErase l id else p :: mapErase l id := by
  by_cases h : p.1 = id <;> simp [mapErase, List.filter_cons, h]

theorem countKey_mapErase_self {T E : Type} (l : ListenerMap T E) (id : Nat) :
    countKey (mapErase l id) id = 0 := by
  induction l with
  | nil => rfl
  | cons p rest ih =>
      rw [mapErase_cons]
      by_cases h : p.1 = id
      · simpa [h] using ih
      · simp [h, countKey_cons, ih]

theorem countKey_mapErase_ne {T E : Type} (l : ListenerMap T E) (i j : Nat)
    (h : i ≠ j) : countKey (mapErase l j) i = countKey l i := by
  induction l with
  | nil => rfl
  | cons p rest ih =>
      rw [mapErase_cons]
      by_cases hp : p.1 = j
      · simp [hp, ih, countKey_cons, Ne.symm h]
      · simp [hp, countKey_cons, ih]

theorem countKey_mapInsert_ne {T E : Type} (l : ListenerMap T E) (i j : Nat)
    (cb : T → Except E Unit) (h : i ≠ j) :
    countKey (mapInsert l j cb) i = countKey l i := by
  rw [mapInsert, countKey_append, countKey_mapErase_ne l i j h]
  simp [countKey_cons, countKey, Ne.symm h]

theorem invokeCount_append {T E : Type} (a b : List (Event T E)) (id : Nat) :
    invokeCount (a ++ b) id = invokeCount a id + invokeCount b id := by
  simp [invokeCount, List.filter_append]

theorem notify_cons {T E : Type} (cfg : Bool) (p : Nat × (T → Except E Unit))
    (rest : ListenerMap T E) (v : T) :
    notify cfg (p :: rest) v =
      (match p.2 v with
       | Except.ok _ => [Event.invoke p.1 v]
       | Except.error e =>
           Event.invoke p.1 v :: (if cfg then [Event.sink e] else []))
      ++ notify cfg rest v := rfl

theorem invokeCount_notify {T E : Type} (cfg : Bool) (snap : ListenerMap T E)
    (v : T) (id : Nat) :
    invokeCount (notify cfg snap v) id = countKey snap id := by
  induction snap with
  | nil => rfl
  | cons p rest ih =>
      rw [notify_cons, invokeCount_append, ih, countKey_cons]
      cases hpv : p.2 v <;> cases cfg <;> by_cases h : p.1 = id <;>
        simp [invokeCount, isInvokeOf, h]

theorem invoke_value_notify {T E : Type} (cfg : Bool) (snap : ListenerMap T E)
    (v : T) (i : Nat) (u : T) (h : Event.invoke i u ∈ notify cfg snap v) :
    u = v := by
  induction snap with
  | nil => simp [notify] at h
  | cons p rest ih =>
      rw [notify_cons] at h
      rcases List.mem_append.mp h with hl | hr
      · cases hpv : p.2 v with
        | ok w =>
            rw [hpv] at hl
            simp at hl
            exact hl.2
        | error e =>
            rw [hpv] at hl
            cases cfg <;> simp at hl <;> exact hl.2
      · exact ih hr

theorem sinkCalls_append {T E : Type} (a b : List (Event T E)) :
    sinkCalls (a ++ b) = sinkCalls a ++ sinkCalls b := by
  simp [sinkCalls, List.filterMap_append]

theorem sinkCalls_notify {T E : Type} (cfg : Bool) (snap : ListenerMap T E)
    (v : T) :
    sinkCalls (notify cfg snap v) = if cfg then capturedFailures snap v else [] := by
  induction snap with
  | nil => cases cfg <;> rfl
  | cons p rest ih =>
      rw [notify_cons, sinkCalls_append, ih]
      cases hpv : p.2 v <;> cases cfg <;>
        simp [sinkCalls, sinkOf, capturedFailures, List.filterMap_cons, hpv]

theorem countKey_eq_zero_of_forall_lt {T E : Type} (l : ListenerMap T E)
    (n id : Nat) (hwf : ∀ k ∈ l.map Prod.fst, k < n) (hge : n ≤ id) :
    countKey l id = 0 := by
  induction l with
  | nil => rfl
  | cons p rest ih =>
      have hp : p.1 < n := hwf p.1 (by simp)
      have hne : ¬ p.1 = id := by omega
      simp [countKey_cons, hne, ih (fun k hk => hwf k (by simp [hk]))]

theorem update_fst_value {T E : Type} [DecidableEq T] (s : AtomState T E)
    (f : T → T) : (s.update f).1.value = f s.value := by
  by_cases h : f s.value = s.value <;> simp [AtomState.update, h]

theorem runUpdates_value {T E : Type} [DecidableEq T] (s : AtomState T E)
    (fs : List (T → T)) :
    (runUpdates s fs).value = fs.foldl (fun v f => f v) s.value := by
  induction fs generalizing s with
  | nil => rfl
  | cons f rest ih =>
      rw [runUpdates, List.foldl_cons, List.foldl_cons, ← update_fst_value s f]
      exact ih ((s.update f).1)

theorem stepOp_dead {T E : Type} [DecidableEq T] (s : AtomState T E) (id : Nat)
    (op : AtomOp T E) (h : DeadId s id) :
    DeadId (stepOp s op).1 id ∧ invokeCount (stepOp s op).2 id = 0 := by
  obtain ⟨hcount, hlt⟩ := h
  cases op with
  | write v =>
      by_cases hv : v = s.value
      · simp [stepOp, AtomState.set, hv, DeadId, hcount, hlt, invokeCount]
      · simp [stepOp, AtomState.set, hv, DeadId, hcount, hlt, invokeCount_notify]
  | upd f =>
      by_cases hv : f s.value = s.value
      · simp [stepOp, AtomState.update, hv, DeadId, hcount, hlt, invokeCount]
      · simp [stepOp, AtomState.update, hv, DeadId, hcount, hlt,
          invokeCount_notify]
  | reg cb =>
      refine ⟨⟨?_, ?_⟩, rfl⟩
      · have hne : id ≠ s.nextId := by omega
        simpa [stepOp, AtomState.subscribe]
          using (countKey_mapInsert_ne s.listeners id s.nextId cb hne).trans hcount
      · simp [stepOp, AtomState.subscribe]
        omega

theorem runOps_dead {T E : Type} [DecidableEq T] (s : AtomState T E) (id : Nat)
    (ops : List (AtomOp T E)) (h : DeadId s id) :
    invokeCount (runOps s ops).2 id = 0 ∧ DeadId (runOps s ops).1 id := by
  induction ops generalizing s with
  | nil => exact ⟨rfl, h⟩
  | cons op rest ih =>
      obtain ⟨h1, h2⟩ := stepOp_dead s id op h
      obtain ⟨h3, h4⟩ := ih _ h1
      exact ⟨by simp [runOps, invokeCount_append, h2, h3], h4⟩

theorem countKey_eq_zero_of_not_mem {T E : Type} (l : ListenerMap T E)
    (k : Nat) (h : k ∉ l.map Prod.fst) : countKey l k = 0 := by
  induction l with
  | nil => rfl
  | cons p rest ih =>
      simp only [List.map_cons, List.mem_cons] at h
      push_neg at h
      simp [countKey_cons, Ne.symm h.1, ih h.2]

theorem countKey_eq_one_of_mem_nodup {T E : Type} (l : ListenerMap T E)
    (p : Nat × (T → Except E Unit)) (hmem : p ∈ l)
    (hnd : (l.map Prod.fst).Nodup) : countKey l p.1 = 1 := by
  induction l with
  | nil => cases hmem
  | cons q rest ih =>
      simp only [List.map_cons, List.nodup_cons] at hnd
      rcases List.mem_cons.mp hmem with heq | hrest
      · subst heq
        simp [countKey_cons, countKey_eq_zero_of_not_mem rest p.1 hnd.1]
      · have hne : q.1 ≠ p.1 := by
          intro hcontra
          exact hnd.1 (hcontra ▸ List.mem_map_of_mem Prod.fst hrest)
        simp [countKey_cons, hne, ih hrest hnd.2]

theorem unsubscribe_inert {T E : Type} (w : World T E) (sub : SubHandle)
    (h : sub.owner = false) : (unsubscribe w sub).1 = w := by
  simp [unsubscribe, SubHandle.lockOk, h]

theorem subDtor_inert {T E : Type} (w : World T E) (sub : SubHandle)
    (h : sub.owner = false) : subDtor w sub = w := by
  simp [subDtor, SubHandle.lockOk, h]

theorem unsubscribe_dead_cell {T E : Type} (w : World T E) (sub : SubHandle)
    (h : w.cellAlive = false) : (unsubscribe w sub).1 = w := by
  simp [unsubscribe, SubHandle.lockOk, h]

theorem subDtor_dead_cell {T E : Type} (w : World T E) (sub : SubHandle)
    (h : w.cellAlive = false) : subDtor w sub = w := by
  simp [subDtor, SubHandle.lockOk, h]

/-! ### Concrete states used by the witnesses -/

/-- A concrete observer callback that always terminates normally. -/
def okCb : Nat → Except Nat Unit := fun _ => Except.ok ()

/-- A concrete observer callback that always terminates abnormally,
failing with the error value 7. -/
def badCb : Nat → Except Nat Unit := fun _ => Except.error 7

/-- A concrete reachable atom state over `Nat` values and `Nat` failures:
current value 0, observers 0 (succeeding) and 1 (failing) registered,
counter at 2, error sink configured. -/
def demoState : AtomState Nat Nat :=
  ⟨0, [(0, okCb), (1, badCb)], 2, true⟩

/-- A live world around `demoState`. -/
def demoWorld : World Nat Nat := ⟨true, demoState⟩

/-- A world whose atom has been destroyed. -/
def deadWorld : World Nat Nat := ⟨false, demoState⟩

/-! ### The claims -/

/-- C2: for equality-comparable `T`, `set(v)` with `v` equal to the current
value, and `update(f)` with `f` mapping the current value to itself, leave
the whole state (value, registry, id counter) unchanged and dispatch no
observer invocations. -/
theorem equal_write_and_update_skip {T E : Type} [DecidableEq T]
    (s : AtomState T E) (f : T → T) (hf : f s.value = s.value) :
    s.set s.value = (s, []) ∧ s.update f = (s, []) := by
  exact ⟨by simp [AtomState.set], by simp [AtomState.update, hf]⟩

theorem equal_write_and_update_skip_witness :
    (fun n => n * 1) demoState.value = demoState.value
    ∧ (demoState.set demoState.value = (demoState, [])
       ∧ demoState.update (fun n => n * 1) = (demoState, [])) :=
  ⟨by decide, equal_write_and_update_skip demoState (fun n => n * 1) (by decide)⟩

/-- C4: when the updater passed to `update` terminates abnormally, the
failure propagates to the caller of `update` as is; no successor state and
no events are produced, so the cell (value, registry, id counter) is left
completely unmodified and no observer is invoked. -/
theorem updater_failure_leaves_cell_unchanged {T E : Type} [DecidableEq T]
    (s : AtomState T E) (f : T → Except E T) (e : E)
    (hf : f s.value = Except.error e) :
    s.updateE f = Except.error e := by
  simp [AtomState.updateE, hf]

theorem updater_failure_leaves_cell_unchanged_witness :
    (fun _ : Nat => (Except.error 3 : Except Nat Nat)) demoState.value
        = Except.error 3
    ∧ demoState.updateE (fun _ => Except.error 3) = Except.error 3 :=
  ⟨rfl, updater_failure_leaves_cell_unchanged demoState
    (fun _ => Except.error 3) 3 rfl⟩

/-- C5: starting from a freshly constructed cell with initial value `v0`, a
sequence of `update` calls with functions `f1 … fn` and no intervening
writes leaves `read()` returning `(fn ∘ … ∘ f1)(v0)`. -/
theorem update_composition {T E : Type} [DecidableEq T] (v0 : T) (cfg : Bool)
    (fs : List (T → T)) :
    (runUpdates (createAtom (E := E) v0 cfg) fs).get
      = fs.foldl (fun v f => f v) v0 := by
  rw [AtomState.get, runUpdates_value]
  rfl

/-- C1: for an accepted `set` (`v ≠ value_`) and an accepted `update`
(`f value_ ≠ value_`) on a well-formed registry with distinct keys, the new
value is stored; every observer registered at the moment of the store is
invoked exactly once; every invocation carries exactly the stored value (not
the value current at invocation time); and an id allocated only during the
dispatch phase (necessarily `≥ next_id_` at the store) receives no
invocation for this change. -/
theorem accepted_change_notifies_snapshot {T E : Type} [DecidableEq T]
    (s : AtomState T E) (v : T) (f : T → T)
    (hv : v ≠ s.value) (hf : f s.value ≠ s.value) (hwf : WF s)
    (hnd : (s.listeners.map Prod.fst).Nodup) :
    ((s.set v).1.value = v
      ∧ (∀ p ∈ s.listeners, invokeCount (s.set v).2 p.1 = 1)
      ∧ (∀ id u, Event.invoke id u ∈ (s.set v).2 → u = v)
      ∧ ∀ id, s.nextId ≤ id → invokeCount (s.set v).2 id = 0)
    ∧ ((s.update f).1.value = f s.value
      ∧ (∀ p ∈ s.listeners, invokeCount (s.update f).2 p.1 = 1)
      ∧ (∀ id u, Event.invoke id u ∈ (s.update f).2 → u = f s.value)
      ∧ ∀ id, s.nextId ≤ id → invokeCount (s.update f).2 id = 0) := by
  have hset : s.set v
      = ({ s with value := v }, notify s.sinkConfigured s.listeners v) := by
    simp [AtomState.set, hv]
  have hupd : s.update f
      = ({ s with value := f s.value },
         notify s.sinkConfigured s.listeners (f s.value)) := by
    simp [AtomState.update, hf]
  rw [hset, hupd]
  refine ⟨⟨rfl, ?_, ?_, ?_⟩, rfl, ?_, ?_, ?_⟩
  · intro p hp
    rw [invokeCount_notify]
    exact countKey_eq_one_of_mem_nodup s.listeners p hp hnd
  · intro id u h
    exact invoke_value_notify s.sinkConfigured s.listeners v id u h
  · intro id hge
    rw [invokeCount_notify]
    exact countKey_eq_zero_of_forall_lt s.listeners s.nextId id hwf hge
  · intro p hp
    rw [invokeCount_notify]
    exact countKey_eq_one_of_mem_nodup s.listeners p hp hnd
  · intro id u h
    exact invoke_value_notify s.sinkConfigured s.listeners (f s.value) id u h
  · intro id hge
    rw [invokeCount_notify]
    exact countKey_eq_zero_of_forall_lt s.listeners s.nextId id hwf hge

theorem accepted_change_notifies_snapshot_witness :
    ((5 : Nat) ≠ demoState.value
      ∧ (fun n => n + 1) demoState.value ≠ demoState.value
      ∧ WF demoState
      ∧ (demoState.listeners.map Prod.fst).Nodup)
    ∧ (((demoState.set 5).1.value = 5
        ∧ (∀ p ∈ demoState.listeners, invokeCount (demoState.set 5).2 p.1 = 1)
        ∧ (∀ id u, Event.invoke id u ∈ (demoState.set 5).2 → u = 5)
        ∧ ∀ id, demoState.nextId ≤ id → invokeCount (demoState.set 5).2 id = 0)
      ∧ ((demoState.update (fun n => n + 1)).1.value
            = (fun n => n + 1) demoState.value
        ∧ (∀ p ∈ demoState.listeners,
            invokeCount (demoState.update (fun n => n + 1)).2 p.1 = 1)
        ∧ (∀ id u, Event.invoke id u ∈ (demoState.update (fun n => n + 1)).2 →
            u = (fun n => n + 1) demoState.value)
        ∧ ∀ id, demoState.nextId ≤ id →
            invokeCount (demoState.update (fun n => n + 1)).2 id = 0)) :=
  ⟨⟨by decide, by decide, by simp [WF, demoState], by simp [demoState]⟩,
    accepted_change_notifies_snapshot demoState 5 (fun n => n + 1)
      (by decide) (by decide) (by simp [WF, demoState]) (by simp [demoState])⟩

/-- C3: in a dispatch triggered by an accepted `set` or `update`, every
failing observer's failure is captured and, exactly when the error sink is
configured, delivered to the sink once per failure in dispatch order
(`sinkCalls … = capturedFailures …`); dispatch continues past failures, so
every observer of the snapshot is still invoked exactly once; and `set` /
`update` always return an ordinary state-and-trace pair — an observer
failure never propagates to their caller (only `updateE`'s updater failure
can, see C4). -/
theorem observer_failure_isolated_and_forwarded {T E : Type} [DecidableEq T]
    (s : AtomState T E) (v : T) (f : T → T)
    (hv : v ≠ s.value) (hf : f s.value ≠ s.value)
    (hnd : (s.listeners.map Prod.fst).Nodup) :
    (sinkCalls (s.set v).2
        = (if s.sinkConfigured then capturedFailures s.listeners v else [])
      ∧ ∀ p ∈ s.listeners, invokeCount (s.set v).2 p.1 = 1)
    ∧ (sinkCalls (s.update f).2
        = (if s.sinkConfigured then capturedFailures s.listeners (f s.value)
           else [])
      ∧ ∀ p ∈ s.listeners, invokeCount (s.update f).2 p.1 = 1) := by
  have hset : s.set v
      = ({ s with value := v }, notify s.sinkConfigured s.listeners v) := by
    simp [AtomState.set, hv]
  have hupd : s.update f
      = ({ s with value := f s.value },
         notify s.sinkConfigured s.listeners (f s.value)) := by
    simp [AtomState.update, hf]
  rw [hset, hupd]
  refine ⟨⟨sinkCalls_notify _ _ _, ?_⟩, sinkCalls_notify _ _ _, ?_⟩
  · intro p hp
    rw [invokeCount_notify]
    exact countKey_eq_one_of_mem_nodup s.listeners p hp hnd
  · intro p hp
    rw [invokeCount_notify]
    exact countKey_eq_one_of_mem_nodup s.listeners p hp hnd

theorem observer_failure_isolated_and_forwarded_witness :
    ((5 : Nat) ≠ demoState.value
      ∧ (fun n => n + 1) demoState.value ≠ demoState.value
      ∧ (demoState.listeners.map Prod.fst).Nodup)
    ∧ ((sinkCalls (demoState.set 5).2
          = (if demoState.sinkConfigured
             then capturedFailures demoState.listeners 5 else [])
        ∧ ∀ p ∈ demoState.listeners, invokeCount (demoState.set 5).2 p.1 = 1)
      ∧ (sinkCalls (demoState.update (fun n => n + 1)).2
          = (if demoState.sinkConfigured
             then capturedFailures demoState.listeners
               ((fun n => n + 1) demoState.value) else [])
        ∧ ∀ p ∈ demoState.listeners,
            invokeCount (demoState.update (fun n => n + 1)).2 p.1 = 1)) :=
  ⟨⟨by decide, by decide, by simp [demoState]⟩,
    observer_failure_isolated_and_forwarded demoState 5 (fun n => n + 1)
      (by decide) (by decide) (by simp [demoState])⟩

/-- C6: in sequential execution, destroying the holder performs the same
deregistration as explicit release (`~Subscription` and `unsubscribe` leave
the same world); after release the observer's id is gone from the registry;
and since the id counter never re-issues a consumed id, no subsequent
sequence of writes, updates or subscribes ever invokes that observer again. -/
theorem release_and_dtor_stop_invocations {T E : Type} [DecidableEq T]
    (w : World T E) (sub : SubHandle) (ops : List (AtomOp T E))
    (halive : w.cellAlive = true) (hown : sub.owner = true)
    (hid : sub.id < w.cell.nextId) :
    subDtor w sub = (unsubscribe w sub).1
    ∧ countKey (unsubscribe w sub).1.cell.listeners sub.id = 0
    ∧ invokeCount (runOps (unsubscribe w sub).1.cell ops).2 sub.id = 0 := by
  have hlock : sub.lockOk w = true := by simp [SubHandle.lockOk, hown, halive]
  have h1 : (unsubscribe w sub).1 = worldErase w sub.id := by
    simp [unsubscribe, hlock]
  refine ⟨by simp [subDtor, unsubscribe], ?_, ?_⟩
  · rw [h1]
    exact countKey_mapErase_self w.cell.listeners sub.id
  · rw [h1]
    have hdead : DeadId (worldErase w sub.id).cell sub.id :=
      ⟨countKey_mapErase_self w.cell.listeners sub.id, hid⟩
    exact (runOps_dead (worldErase w sub.id).cell sub.id ops hdead).1

theorem release_and_dtor_stop_invocations_witness :
    (demoWorld.cellAlive = true ∧ (mkActiveSub 1).owner = true
      ∧ (mkActiveSub 1).id < demoWorld.cell.nextId)
    ∧ (subDtor demoWorld (mkActiveSub 1)
          = (unsubscribe demoWorld (mkActiveSub 1)).1
      ∧ countKey (unsubscribe demoWorld (mkActiveSub 1)).1.cell.listeners
          (mkActiveSub 1).id = 0
      ∧ invokeCount
          (runOps (unsubscribe demoWorld (mkActiveSub 1)).1.cell
            [AtomOp.write 5, AtomOp.reg okCb, AtomOp.upd (fun n => n + 1)]).2
          (mkActiveSub 1).id = 0) :=
  ⟨⟨rfl, rfl, by decide⟩,
    release_and_dtor_stop_invocations demoWorld (mkActiveSub 1)
      [AtomOp.write 5, AtomOp.reg okCb, AtomOp.upd (fun n => n + 1)]
      rfl rfl (by decide)⟩

/-- C7: move-constructing handle B from handle A transfers the binding
unchanged and leaves A inert (empty reference), so destroying or releasing A
afterwards changes nothing; releasing B removes exactly the transferred
observer (its id leaves the registry, every other id is untouched) and a
second release of B has no further effect; move-assigning a source handle
into a non-inert holder erases the holder's old id from the registry,
leaves every other id untouched, adopts the source's binding, and leaves
the source inert. -/
theorem move_transfer_uniqueness {T E : Type} [DecidableEq T]
    (w : World T E) (sub target other : SubHandle)
    (halive : w.cellAlive = true) (hown : sub.owner = true)
    (htown : target.owner = true) :
    ((moveCtor sub).1 = sub
      ∧ (moveCtor sub).2.owner = false
      ∧ subDtor w (moveCtor sub).2 = w
      ∧ (unsubscribe w (moveCtor sub).2).1 = w)
    ∧ (countKey (unsubscribe w (moveCtor sub).1).1.cell.listeners sub.id = 0
      ∧ (∀ i, i ≠ sub.id →
          countKey (unsubscribe w (moveCtor sub).1).1.cell.listeners i
            = countKey w.cell.listeners i)
      ∧ (unsubscribe (unsubscribe w (moveCtor sub).1).1
            (unsubscribe w (moveCtor sub).1).2).1
          = (unsubscribe w (moveCtor sub).1).1)
    ∧ (countKey (moveAssign w target other).1.cell.listeners target.id = 0
      ∧ (∀ i, i ≠ target.id →
          countKey (moveAssign w target other).1.cell.listeners i
            = countKey w.cell.listeners i)
      ∧ (moveAssign w target other).2.1 = other
      ∧ (moveAssign w target other).2.2.owner = false) := by
  have hB : (unsubscribe w (moveCtor sub).1).1 = worldErase w sub.id := by
    simp [unsubscribe, SubHandle.lockOk, moveCtor, hown, halive]
  have hT : (moveAssign w target other).1 = worldErase w target.id := by
    simp [moveAssign, SubHandle.lockOk, htown, halive]
  refine ⟨⟨rfl, rfl, subDtor_inert w (moveCtor sub).2 rfl,
      unsubscribe_inert w (moveCtor sub).2 rfl⟩,
    ⟨?_, ?_, ?_⟩, ?_, ?_, rfl, rfl⟩
  · rw [hB]
    exact countKey_mapErase_self w.cell.listeners sub.id
  · intro i hi
    rw [hB]
    exact countKey_mapErase_ne w.cell.listeners i sub.id hi
  · exact unsubscribe_inert (unsubscribe w (moveCtor sub).1).1
      (unsubscribe w (moveCtor sub).1).2 rfl
  · rw [hT]
    exact countKey_mapErase_self w.cell.listeners target.id
  · intro i hi
    rw [hT]
    exact countKey_mapErase_ne w.cell.listeners i target.id hi

theorem move_transfer_uniqueness_witness :
    (demoWorld.cellAlive = true ∧ (mkActiveSub 0).owner = true
      ∧ (mkActiveSub 1).owner = true)
    ∧ (((moveCtor (mkActiveSub 0)).1 = mkActiveSub 0
        ∧ (moveCtor (mkActiveSub 0)).2.owner = false
        ∧ subDtor demoWorld (moveCtor (mkActiveSub 0)).2 = demoWorld
        ∧ (unsubscribe demoWorld (moveCtor (mkActiveSub 0)).2).1 = demoWorld)
      ∧ (countKey (unsubscribe demoWorld
            (moveCtor (mkActiveSub 0)).1).1.cell.listeners
            (mkActiveSub 0).id = 0
        ∧ (∀ i, i ≠ (mkActiveSub 0).id →
            countKey (unsubscribe demoWorld
              (moveCtor (mkActiveSub 0)).1).1.cell.listeners i
              = countKey demoWorld.cell.listeners i)
        ∧ (unsubscribe (unsubscribe demoWorld (moveCtor (mkActiveSub 0)).1).1
              (unsubscribe demoWorld (moveCtor (mkActiveSub 0)).1).2).1
            = (unsubscribe demoWorld (moveCtor (mkActiveSub 0)).1).1)
      ∧ (countKey (moveAssign demoWorld (mkActiveSub 1)
            (mkOrphanSub 3)).1.cell.listeners (mkActiveSub 1).id = 0
        ∧ (∀ i, i ≠ (mkActiveSub 1).id →
            countKey (moveAssign demoWorld (mkActiveSub 1)
              (mkOrphanSub 3)).1.cell.listeners i
              = countKey demoWorld.cell.listeners i)
        ∧ (moveAssign demoWorld (mkActiveSub 1) (mkOrphanSub 3)).2.1
            = mkOrphanSub 3
        ∧ (moveAssign demoWorld (mkActiveSub 1) (mkOrphanSub 3)).2.2.owner
            = false)) :=
  ⟨⟨rfl, rfl, rfl⟩,
    move_transfer_uniqueness demoWorld (mkActiveSub 0) (mkActiveSub 1)
      (mkOrphanSub 3) rfl rfl rfl⟩

/-- C8: releasing a handle whose reference is already empty, or whose atom
has been destroyed, terminates normally as a no-op: the world — including
every other observer's registration — is unchanged; after any first release
the handle's reference is empty, so a second release (or the destructor)
has no further effect. -/
theorem released_or_orphaned_release_noop {T E : Type} [DecidableEq T]
    (w worphan : World T E) (sub dead : SubHandle)
    (hdead : dead.owner = false) (horphan : worphan.cellAlive = false) :
    ((unsubscribe w dead).1 = w
      ∧ (unsubscribe w dead).2.owner = false
      ∧ subDtor w dead = w)
    ∧ ((unsubscribe (unsubscribe w sub).1 (unsubscribe w sub).2).1
          = (unsubscribe w sub).1
      ∧ subDtor (unsubscribe w sub).1 (unsubscribe w sub).2
          = (unsubscribe w sub).1)
    ∧ ((unsubscribe worphan sub).1 = worphan
      ∧ subDtor worphan sub = worphan) :=
  ⟨⟨unsubscribe_inert w dead hdead, rfl, subDtor_inert w dead hdead⟩,
    ⟨unsubscribe_inert (unsubscribe w sub).1 (unsubscribe w sub).2 rfl,
      subDtor_inert (unsubscribe w sub).1 (unsubscribe w sub).2 rfl⟩,
    unsubscribe_dead_cell worphan sub horphan,
    subDtor_dead_cell worphan sub horphan⟩

theorem released_or_orphaned_release_noop_witness :
    ((mkOrphanSub 1).owner = false ∧ deadWorld.cellAlive = false)
    ∧ (((unsubscribe demoWorld (mkOrphanSub 1)).1 = demoWorld
        ∧ (unsubscribe demoWorld (mkOrphanSub 1)).2.owner = false
        ∧ subDtor demoWorld (mkOrphanSub 1) = demoWorld)
      ∧ ((unsubscribe (unsubscribe demoWorld (mkActiveSub 0)).1
            (unsubscribe demoWorld (mkActiveSub 0)).2).1
            = (unsubscribe demoWorld (mkActiveSub 0)).1
        ∧ subDtor (unsubscribe demoWorld (mkActiveSub 0)).1
            (unsubscribe demoWorld (mkActiveSub 0)).2
            = (unsubscribe demoWorld (mkActiveSub 0)).1)
      ∧ ((unsubscribe deadWorld (mkActiveSub 0)).1 = deadWorld
        ∧ subDtor deadWorld (mkActiveSub 0) = deadWorld)) :=
  ⟨⟨rfl, rfl⟩,
    released_or_orphaned_release_noop demoWorld deadWorld (mkActiveSub 0)
      (mkOrphanSub 1) rfl rfl⟩

/-- C10: every released-state handle — moved-from, explicitly released, or
constructed as an inert placeholder — carries an empty weak reference; any
subsequent release, destruction or being the erased side of a
move-assignment leaves the world (hence the registry) unchanged.  The
sentinel id 0 written into a moved-from handle coincides with the first id
the counter hands out (`next_id_` starts at 0, so the first `subscribe`
returns id 0), yet an inert handle never erases a live observer registered
under id 0: a registry holding exactly one entry under id 0 still holds
exactly one after the moved-from handle is destroyed. -/
theorem inert_handle_never_erases {T E : Type} [DecidableEq T]
    (w : World T E) (sub inert other : SubHandle) (initial : T) (cfg : Bool)
    (cb : T → Except E Unit)
    (hinert : inert.owner = false) (h0 : countKey w.cell.listeners 0 = 1) :
    ((moveCtor sub).2.owner = false
      ∧ (unsubscribe w sub).2.owner = false
      ∧ (mkOrphanSub 0).owner = false)
    ∧ ((moveCtor sub).2.id = 0
      ∧ (createAtom (E := E) initial cfg).nextId = 0
      ∧ ((createAtom (E := E) initial cfg).subscribe cb).2 = 0)
    ∧ ((unsubscribe w inert).1 = w
      ∧ subDtor w inert = w
      ∧ (moveAssign w inert other).1 = w)
    ∧ countKey (subDtor w (moveCtor sub).2).cell.listeners 0 = 1 :=
  ⟨⟨rfl, rfl, rfl⟩, ⟨rfl, rfl, rfl⟩,
    ⟨unsubscribe_inert w inert hinert, subDtor_inert w inert hinert,
      by simp [moveAssign, SubHandle.lockOk, hinert]⟩,
    by rw [subDtor_inert w (moveCtor sub).2 rfl]; exact h0⟩

theorem inert_handle_never_erases_witness :
    ((mkOrphanSub 5).owner = false ∧ countKey demoWorld.cell.listeners 0 = 1)
    ∧ (((moveCtor (mkActiveSub 0)).2.owner = false
        ∧ (unsubscribe demoWorld (mkActiveSub 0)).2.owner = false
        ∧ (mkOrphanSub 0).owner = false)
      ∧ ((moveCtor (mkActiveSub 0)).2.id = 0
        ∧ (createAtom (E := Nat) (7 : Nat) true).nextId = 0
        ∧ ((createAtom (E := Nat) (7 : Nat) true).subscribe okCb).2 = 0)
      ∧ ((unsubscribe demoWorld (mkOrphanSub 5)).1 = demoWorld
        ∧ subDtor demoWorld (mkOrphanSub 5) = demoWorld
        ∧ (moveAssign demoWorld (mkOrphanSub 5) (mkActiveSub 1)).1
            = demoWorld)
      ∧ countKey (subDtor demoWorld
          (moveCtor (mkActiveSub 0)).2).cell.listeners 0 = 1) :=
  ⟨⟨rfl, by decide⟩,
    inert_handle_never_erases demoWorld (mkActiveSub 0) (mkOrphanSub 5)
      (mkActiveSub 1) 7 true okCb rfl (by decide)⟩
